import Mathlib

/-!
Data processing system: shared queue, workers, results manager

A shallow embedding of the Go sources (`task.go`, `shared_queue.go`,
`processed_result.go`, `results_manager.go`, `worker.go`,
`data_processing_system.go`) and the properties proved about them.

Conventions of the embedding.

* A Go pointer that may be `nil` is an `Option`; a value of the pointed-to
  structure stands for a non-nil pointer.
* `time.Time` is the instant in Unix nanoseconds, `time.Duration` the `int64`
  nanosecond count with two's-complement wrap-around on addition.
* A method is a function from the receiver's state (and the arguments) to the
  returned value and the receiver's new state.  A call that can wait forever or
  panic returns `Except Fault`.
* Calls are atomic steps: one call runs to its return before the next starts.
  Where a Go `select` has several ready cases the runtime picks one at random;
  the choice is the explicit argument `pick`.
* Functions of the Go standard library whose text is not part of the repository
  (`strings.ToUpper`, `time.Duration.String`, `time.Time.Format`) are arguments.
-/

namespace DataProcessing

/-! ## task.go -/

/-- Instants (`time.Time`), as Unix nanoseconds. -/
abbrev Time := Int

/-- Spans (`time.Duration`): an `int64` count of nanoseconds. -/
abbrev Duration := Int

/-- The struct `Task`. -/
structure Task where
  ID : Int
  Data : String
  Timestamp : Time
  deriving DecidableEq, Repr

/-- The constructor `NewTask`; `now` is the reading of `time.Now()`. -/
def NewTask (id : Int) (data : String) (now : Time) : Task :=
  { ID := id, Data := data, Timestamp := now }

/-! ## shared_queue.go -/

/-- The ways a call can fail to return. -/
inductive Fault where
  /-- The goroutine waits on a `select` none of whose cases can proceed. -/
  | blocked
  /-- A run-time panic (closing a closed channel, sending on one, dividing by zero). -/
  | panicked
  deriving DecidableEq, Repr

/-- The struct `SharedQueue`.  `tasks` is the buffer of the channel, oldest
element first (only `AddTask` sends on it and it sends no `nil`);
`tasksClosed` records `close(sq.tasks)`; `ctxDone` records that `sq.cancel()`
ran, that is, that the channel `sq.ctx.Done()` is closed.  The lock `mu` is
represented by the atomicity of the calls. -/
structure SharedQueue where
  tasks : List Task
  tasksClosed : Bool
  shutdown : Bool
  maxSize : Nat
  ctxDone : Bool
  deriving DecidableEq, Repr

/-- The constructor `NewSharedQueue`: an open channel of capacity `maxSize`,
a live context, `shutdown` false. -/
def NewSharedQueue (maxSize : Nat) : SharedQueue :=
  { tasks := [], tasksClosed := false, shutdown := false, maxSize := maxSize, ctxDone := false }

/-- Whether the communication `sq.tasks <- task` can proceed: there is room in
the buffer, or the channel is closed (the send then proceeds by panicking). -/
def sendReady (sq : SharedQueue) : Bool :=
  sq.tasksClosed || decide (sq.tasks.length < sq.maxSize)

/-- The communication `sq.tasks <- task` once chosen. -/
def send (sq : SharedQueue) (task : Task) : Except Fault SharedQueue :=
  if sq.tasksClosed then .error .panicked
  else .ok { sq with tasks := sq.tasks ++ [task] }

/-- Whether the communication `<-sq.tasks` can proceed: a buffered element, or
a closed channel (which yields the zero value `nil`). -/
def recvReady (sq : SharedQueue) : Bool :=
  sq.tasksClosed || !sq.tasks.isEmpty

/-- The communication `task := <-sq.tasks` once chosen. -/
def recv (sq : SharedQueue) : Option Task × SharedQueue :=
  match sq.tasks with
  | [] => (none, sq)
  | t :: rest => (some t, { sq with tasks := rest })

/-- The method `AddTask`.  After the `nil` and `shutdown` guards, the outer
`select` offers the send and `ctx.Done()`, with a `default`.  In the `default`
branch the state is the one the outer `select` saw (no other goroutine runs
during the call), so of the three cases of the inner `select` only the
100 ms timer fires. -/
def AddTask (sq : SharedQueue) (task : Option Task) (pick : Bool) :
    Except Fault (Bool × SharedQueue) :=
  match task with
  | none => .ok (false, sq)
  | some t =>
    if sq.shutdown then .ok (false, sq)
    else
      match sendReady sq, sq.ctxDone with
      | true, true =>
        if pick then (send sq t).map (fun sq1 => (true, sq1)) else .ok (false, sq)
      | true, false => (send sq t).map (fun sq1 => (true, sq1))
      | false, true => .ok (false, sq)
      | false, false => .ok (false, sq)

/-- The method `GetTask`.  After the `shutdown` guard the `select` offers the
receive and `ctx.Done()` and has no `default`. -/
def GetTask (sq : SharedQueue) (pick : Bool) : Except Fault (Option Task × SharedQueue) :=
  if sq.shutdown then .ok (none, sq)
  else
    match recvReady sq, sq.ctxDone with
    | true, true => if pick then .ok (recv sq) else .ok (none, sq)
    | true, false => .ok (recv sq)
    | false, true => .ok (none, sq)
    | false, false => .error .blocked

/-- The method `IsEmpty`. -/
def IsEmpty (sq : SharedQueue) : Bool :=
  sq.tasks.length == 0

/-- The method `Size`. -/
def Size (sq : SharedQueue) : Nat :=
  sq.tasks.length

/-- The method `Shutdown`: under the guard `!sq.shutdown` it sets the flag,
cancels the context (cancelling twice is allowed) and closes the channel
(closing a closed channel panics). -/
def Shutdown (sq : SharedQueue) : Except Fault SharedQueue :=
  if !sq.shutdown then
    let sq1 := { sq with shutdown := true }
    let sq2 := { sq1 with ctxDone := true }
    if sq2.tasksClosed then .error .panicked
    else .ok { sq2 with tasksClosed := true }
  else .ok sq

/-- The method `IsShutdown`. -/
def IsShutdown (sq : SharedQueue) : Bool :=
  sq.shutdown

/-- The representation invariant of `SharedQueue`: the three records of a
shutdown agree (they are written together, in `Shutdown` only) and the buffer
holds no more than the capacity of the channel. -/
def SharedQueue.WF (sq : SharedQueue) : Prop :=
  sq.tasksClosed = sq.shutdown ∧ sq.ctxDone = sq.shutdown ∧ sq.tasks.length ≤ sq.maxSize

instance (sq : SharedQueue) : Decidable sq.WF := by
  unfold SharedQueue.WF; infer_instance

/-- A call on the queue, with the scheduler choice its `select` may need. -/
inductive Call where
  | addTask (task : Option Task) (pick : Bool)
  | getTask (pick : Bool)
  | shutdown
  deriving DecidableEq, Repr

/-- The value a call returned. -/
inductive Ret where
  | addTask (added : Bool)
  | getTask (task : Option Task)
  | shutdown
  deriving DecidableEq, Repr

/-- One call on the queue. -/
def stepCall (sq : SharedQueue) : Call → Except Fault (Ret × SharedQueue)
  | .addTask task pick => (AddTask sq task pick).map (fun r => (Ret.addTask r.1, r.2))
  | .getTask pick => (GetTask sq pick).map (fun r => (Ret.getTask r.1, r.2))
  | .shutdown => (Shutdown sq).map (fun sq1 => (Ret.shutdown, sq1))

/-- A sequence of calls, one after the other; the history pairs every call with
what it returned. -/
def runCalls (sq : SharedQueue) : List Call → Except Fault (List (Call × Ret) × SharedQueue)
  | [] => .ok ([], sq)
  | c :: cs =>
    match stepCall sq c with
    | .error e => .error e
    | .ok (r, sq1) =>
      match runCalls sq1 cs with
      | .error e => .error e
      | .ok (h, sq2) => .ok ((c, r) :: h, sq2)

/-- The tasks of a history whose `AddTask` returned true, in call order. -/
def enqueued : List (Call × Ret) → List Task
  | [] => []
  | (.addTask (some t) _, .addTask true) :: h => t :: enqueued h
  | _ :: h => enqueued h

/-- Whether, along the run of the calls from `sq`, every `GetTask` call finds
a task in the buffer: the buffer a call meets is the one the calls before it
left.  A call that does not return has no call after it. -/
def getsNonEmpty (sq : SharedQueue) : List Call → Bool
  | [] => true
  | c :: cs =>
    (match c with
     | .getTask _ => !IsEmpty sq
     | _ => true) &&
    (match stepCall sq c with
     | .ok (_, sq1) => getsNonEmpty sq1 cs
     | .error _ => true)

/-- The values the `GetTask` calls of a history returned, in call order. -/
def dequeued : List (Call × Ret) → List (Option Task)
  | [] => []
  | (_, .getTask r) :: h => r :: dequeued h
  | _ :: h => dequeued h

/-! ## processed_result.go -/

/-- The struct `ProcessedResult`. -/
structure ProcessedResult where
  TaskID : Int
  OriginalData : String
  ProcessedData : String
  ProcessingTime : Duration
  WorkerThreadName : String
  Timestamp : Time
  deriving DecidableEq, Repr

/-- The constructor `NewProcessedResult`; `now` is the reading of `time.Now()`. -/
def NewProcessedResult (taskID : Int) (originalData processedData workerThreadName : String)
    (processingTime : Duration) (now : Time) : ProcessedResult :=
  { TaskID := taskID, OriginalData := originalData, ProcessedData := processedData,
    ProcessingTime := processingTime, WorkerThreadName := workerThreadName, Timestamp := now }

/-- The standard-library functions the program formats and transforms text with:
`duration` is `time.Duration.String` (the verb `%v`), `time` is
`time.Time.Format("2006-01-02 15:04:05")`, `upper` is `strings.ToUpper`. -/
structure Fmt where
  duration : Duration → String
  time : Time → String
  upper : String → String

/-- The verb `%d` on an `int`: the decimal numeral, with `-` for a negative. -/
def fmtInt (n : Int) : String :=
  toString n

/-- The method `ProcessedResult.String`. -/
def ProcessedResult_String (fmt : Fmt) (pr : ProcessedResult) : String :=
  "ProcessedResult\x7btaskId=" ++ fmtInt pr.TaskID ++ ", originalData='" ++ pr.OriginalData
    ++ "', processedData='" ++ pr.ProcessedData ++ "', processingTime="
    ++ fmt.duration pr.ProcessingTime ++ ", workerThread='" ++ pr.WorkerThreadName
    ++ "', timestamp=" ++ fmt.time pr.Timestamp ++ "\x7d"

/-! ## results_manager.go -/

/-- The struct `ResultsManager`; the slice holds non-nil pointers only
(`AddResult` is the one writer and rejects `nil`). -/
structure ResultsManager where
  results : List ProcessedResult
  outputFile : String
  resultsCount : Int
  deriving DecidableEq, Repr

/-- The constructor `NewResultsManager`. -/
def NewResultsManager (outputFile : String) : ResultsManager :=
  { results := [], outputFile := outputFile, resultsCount := 0 }

/-- The method `AddResult`: the returned error (`none` is Go's `nil`) and the
manager afterwards.  The line it prints on the console is left out. -/
def AddResult (rm : ResultsManager) (result : Option ProcessedResult) :
    Option String × ResultsManager :=
  match result with
  | none => (some "result cannot be nil", rm)
  | some r =>
    (none, { rm with results := rm.results ++ [r], resultsCount := rm.resultsCount + 1 })

/-- The method `GetAllResults`: a copy of the slice. -/
def GetAllResults (rm : ResultsManager) : List ProcessedResult :=
  rm.results

/-- The method `GetResultCount`. -/
def GetResultCount (rm : ResultsManager) : Int :=
  rm.resultsCount

/-- The function `strings.Repeat`. -/
def Repeat (s : String) (count : Nat) : String :=
  String.join (List.replicate count s)

/-- The method `WriteResultsToFile`: the error it returns, or the text the file
`rm.outputFile` holds when it returns `nil`.  `createErr` is the error of
`os.Create` (`none` when the file was created), `now` the reading of
`time.Now()`.  Each `Fprintf` appends to the file.  The console line printed on
success is recorded where the method is called, in
`DataProcessingSystem.Shutdown`. -/
def WriteResultsToFile (fmt : Fmt) (rm : ResultsManager) (now : Time)
    (createErr : Option String) : Except String String :=
  match createErr with
  | some err => .error ("error creating output file: " ++ err)
  | none =>
    let file := ""
    let file := file ++ "Data Processing System Results\n"
    let file := file ++ ("Generated at: " ++ fmt.time now ++ "\n")
    let file := file ++ ("Total Results: " ++ fmtInt rm.resultsCount ++ "\n")
    let file := file ++ (Repeat "=" 80 ++ "\n\n")
    let file := rm.results.foldl
      (fun file result =>
        let file := file ++ (ProcessedResult_String fmt result ++ "\n")
        file ++ (Repeat "-" 40 ++ "\n"))
      file
    .ok file

/-- The addition of two `int64` values: the sum modulo `2^64`, in
`[-2^63, 2^63)`. -/
def wrap64 (x : Int) : Int :=
  (x + 2 ^ 63) % 2 ^ 64 - 2 ^ 63

/-- The division of two `int64` values: it panics on a zero divisor, truncates
toward zero, and wraps in the one overflowing case. -/
def goDiv (a b : Int) : Except Fault Int :=
  if b = 0 then .error .panicked
  else if a = -2 ^ 63 ∧ b = -1 then .ok (-2 ^ 63)
  else .ok (Int.tdiv a b)

/-- The method `PrintSummary`: the text it prints on the console. -/
def PrintSummary (fmt : Fmt) (rm : ResultsManager) : Except Fault String :=
  if rm.resultsCount = 0 then .ok "No results to display.\n"
  else
    let totalProcessingTime :=
      rm.results.foldl (fun total result => wrap64 (total + result.ProcessingTime)) 0
    match goDiv totalProcessingTime rm.resultsCount with
    | .error e => .error e
    | .ok avgProcessingTime =>
      .ok ("\n=== Processing Summary ===\n"
        ++ ("Total Tasks Processed: " ++ fmtInt rm.resultsCount ++ "\n")
        ++ ("Total Processing Time: " ++ fmt.duration totalProcessingTime ++ "\n")
        ++ ("Average Processing Time: " ++ fmt.duration avgProcessingTime ++ "\n")
        ++ ("Results saved to: " ++ rm.outputFile ++ "\n")
        ++ "========================\n")

/-- A sequence of `AddResult` calls: the errors returned, in call order, and the
manager afterwards. -/
def addResults (rm : ResultsManager) :
    List (Option ProcessedResult) → List (Option String) × ResultsManager
  | [] => ([], rm)
  | r :: rs =>
    let (e, rm1) := AddResult rm r
    let (es, rm2) := addResults rm1 rs
    (e :: es, rm2)

/-- The manager that holds the results `rs`: a new manager to which they were
added in order. -/
def managerHolding (outputFile : String) (rs : List ProcessedResult) : ResultsManager :=
  (addResults (NewResultsManager outputFile) (rs.map some)).2

/-! ## worker.go -/

/-- The struct `Worker`.  The queue and the manager it points to are those of
the system that owns it; the channel `done` belongs to its goroutine. -/
structure Worker where
  name : String
  running : Bool
  deriving DecidableEq, Repr

/-- The constructor `NewWorker`. -/
def NewWorker (name : String) : Worker :=
  { name := name, running := true }

/-- The method `processData`; `nowUnixNano` is the reading of
`time.Now().UnixNano()`. -/
def processData (fmt : Fmt) (nowUnixNano : Int) (data : String) : String :=
  if data = "" then "EMPTY_DATA"
  else fmt.upper data ++ "_PROCESSED_" ++ fmtInt nowUnixNano

/-- The clock readings of one `processTask` call: `nowUnixNano` inside
`processData`, `elapsed` from `time.Since(startTime)`, `stamp` from the
`time.Now()` of `NewProcessedResult`. -/
structure TaskClock where
  nowUnixNano : Int
  elapsed : Duration
  stamp : Time

/-- The method `processTask`: the pair it returns, the result and the error
(`none` is Go's `nil`). -/
def processTask (fmt : Fmt) (w : Worker) (task : Task) (clock : TaskClock) :
    Option ProcessedResult × Option String :=
  let processedData := processData fmt clock.nowUnixNano task.Data
  let processingTime := clock.elapsed
  (some (NewProcessedResult task.ID task.Data processedData w.name processingTime clock.stamp),
    none)

/-- The method `Stop`. -/
def Worker.Stop (w : Worker) : Worker :=
  { w with running := false }

/-- The method `IsRunning`. -/
def Worker.IsRunning (w : Worker) : Bool :=
  w.running

/-- The method `GetName`. -/
def Worker.GetName (w : Worker) : String :=
  w.name

/-! ## data_processing_system.go -/

/-- The struct `DataProcessingSystem`.  The wait group serves the goroutines of
`Shutdown` only and is left out. -/
structure DataProcessingSystem where
  taskQueue : SharedQueue
  resultsManager : ResultsManager
  workers : List Worker
  numWorkerThreads : Nat
  maxQueueSize : Nat
  deriving DecidableEq, Repr

/-- The constructor `NewDataProcessingSystem`. -/
def NewDataProcessingSystem (numWorkerThreads maxQueueSize : Nat) (outputFileName : String) :
    DataProcessingSystem :=
  { taskQueue := NewSharedQueue maxQueueSize, resultsManager := NewResultsManager outputFileName,
    workers := [], numWorkerThreads := numWorkerThreads, maxQueueSize := maxQueueSize }

/-- The method `Start`, as far as the state of the system goes: the workers
`Worker-1` to `Worker-n` are appended (their goroutines are not part of the
state). -/
def Start (dps : DataProcessingSystem) : DataProcessingSystem :=
  { dps with
    workers := dps.workers ++
      (List.range dps.numWorkerThreads).map (fun i => NewWorker ("Worker-" ++ fmtInt (i + 1))) }

/-- What one `Shutdown` call meets outside the system: whether all workers
signalled completion before the 10 s timer (`joined`), the reading of
`time.Now()` in the report, and the error of `os.Create`. -/
structure ShutdownEnv where
  joined : Bool
  now : Time
  createErr : Option String

/-- What the calls leave outside the system: the console text and the report
files written, oldest first, each with its name and text. -/
structure World where
  console : String
  reports : List (String × String)
  deriving DecidableEq, Repr

/-- The method `DataProcessingSystem.Shutdown`, as run by the calling
goroutine: queue shutdown, `Stop` on every worker, the bounded wait (either
outcome), then the export and, if it succeeded, the summary. -/
def DataProcessingSystem.Shutdown (fmt : Fmt) (dps : DataProcessingSystem) (env : ShutdownEnv)
    (world : World) : Except Fault (DataProcessingSystem × World) :=
  let console := world.console ++ "\nShutting down Data Processing System...\n"
  match DataProcessing.Shutdown dps.taskQueue with
  | .error e => .error e
  | .ok taskQueue =>
    let workers := dps.workers.map Worker.Stop
    let console := console ++
      (if env.joined then "All worker threads completed\n"
       else "Timeout waiting for worker threads to complete\n")
    let dps1 := { dps with taskQueue := taskQueue, workers := workers }
    match WriteResultsToFile fmt dps.resultsManager env.now env.createErr with
    | .error err =>
      let console := console ++ ("Failed to write results to file: " ++ err ++ "\n")
      .ok (dps1, { world with
        console := console ++ "Data Processing System shutdown complete\n" })
    | .ok text =>
      let console := console ++ ("Results written to file: " ++ dps.resultsManager.outputFile ++ "\n")
      match PrintSummary fmt dps.resultsManager with
      | .error e => .error e
      | .ok summary =>
        let console := console ++ summary
        .ok (dps1, { console := console ++ "Data Processing System shutdown complete\n",
                     reports := world.reports ++ [(dps.resultsManager.outputFile, text)] })

/-! ## Sample values -/

/-- A task. -/
def task1 : Task := NewTask 1 "user_login_data" 0

/-- Another task. -/
def task2 : Task := NewTask 2 "payment_transaction" 50

/-- A result. -/
def result1 : ProcessedResult :=
  NewProcessedResult 1 "user_login_data" "USER_LOGIN_DATA_PROCESSED_7" "Worker-1" 250 300

/-- A result whose processing time is the largest `int64`. -/
def resultMax : ProcessedResult :=
  NewProcessedResult 1 "system_backup" "SYSTEM_BACKUP_PROCESSED_8" "Worker-1"
    9223372036854775807 300

/-- A result whose processing time is one nanosecond. -/
def resultOne : ProcessedResult :=
  NewProcessedResult 2 "health_check" "HEALTH_CHECK_PROCESSED_9" "Worker-2" 1 400

/-- A choice of the standard-library functions, for evaluating the program. -/
def fmt0 : Fmt :=
  { duration := fun d => toString d ++ "ns", time := fun t => toString t,
    upper := fun s => s.map Char.toUpper }

/-- A system with two workers whose manager holds one result. -/
def system0 : DataProcessingSystem :=
  { Start (NewDataProcessingSystem 2 20 "go_processing_results.txt") with
    resultsManager := managerHolding "go_processing_results.txt" [result1] }

/-- The environment of a `Shutdown` call whose workers all signal completion. -/
def envJoined : ShutdownEnv :=
  { joined := true, now := 1000, createErr := none }

/-- The environment of a `Shutdown` call whose wait runs into the timer. -/
def envTimeout : ShutdownEnv :=
  { joined := false, now := 2000, createErr := none }

/-- The world before any report was written. -/
def world0 : World :=
  { console := "", reports := [] }

/-- What a call returns on a queue that was shut down. -/
def shutdownRet : Call → Ret
  | .addTask _ _ => .addTask false
  | .getTask _ => .getTask none
  | .shutdown => .shutdown

/-- The call `AddTask(task)` on a non-nil task. -/
def addCall (x : Task × Bool) : Call :=
  .addTask (some x.1) x.2

/-! ## The shared queue -/

theorem WF_NewSharedQueue (maxSize : Nat) : (NewSharedQueue maxSize).WF := by
  simp [SharedQueue.WF, NewSharedQueue]

theorem Shutdown_of_shutdown (sq : SharedQueue) (h : sq.shutdown = true) :
    Shutdown sq = .ok sq := by
  simp [Shutdown, h]

theorem GetTask_of_shutdown (sq : SharedQueue) (h : sq.shutdown = true) (pick : Bool) :
    GetTask sq pick = .ok (none, sq) := by
  simp [GetTask, h]

theorem AddTask_of_shutdown (sq : SharedQueue) (h : sq.shutdown = true) (task : Option Task)
    (pick : Bool) : AddTask sq task pick = .ok (false, sq) := by
  cases task <;> simp [AddTask, h]

theorem Shutdown_ok (sq sq1 : SharedQueue) (h : Shutdown sq = .ok sq1) :
    sq1.shutdown = true ∧ sq1.tasks = sq.tasks ∧ sq1.maxSize = sq.maxSize := by
  unfold Shutdown at h
  cases hs : sq.shutdown <;> cases hc : sq.tasksClosed <;> simp [hs, hc] at h
  · subst h; simp
  · subst h; simp [hs]
  · subst h; simp [hs]

theorem Shutdown_of_WF (sq : SharedQueue) (hwf : sq.WF) :
    ∃ sq1, Shutdown sq = .ok sq1 ∧ sq1.WF := by
  obtain ⟨h1, h2, h3⟩ := hwf
  cases hs : sq.shutdown
  · rw [hs] at h1 h2
    refine ⟨_, by simp [Shutdown, hs, h1]; rfl, ?_⟩
    simp [SharedQueue.WF, h3]
  · exact ⟨sq, Shutdown_of_shutdown sq hs, h1, h2, h3⟩

theorem stepCall_of_shutdown (sq : SharedQueue) (h : sq.shutdown = true) (c : Call) :
    stepCall sq c = .ok (shutdownRet c, sq) := by
  cases c with
  | addTask task pick => simp [stepCall, AddTask_of_shutdown sq h, Except.map, shutdownRet]
  | getTask pick => simp [stepCall, GetTask_of_shutdown sq h, Except.map, shutdownRet]
  | shutdown => simp [stepCall, Shutdown_of_shutdown sq h, Except.map, shutdownRet]

theorem runCalls_of_shutdown (sq : SharedQueue) (h : sq.shutdown = true) (cs : List Call) :
    runCalls sq cs = .ok (cs.map (fun c => (c, shutdownRet c)), sq) := by
  induction cs with
  | nil => rfl
  | cons c cs ih => simp [runCalls, stepCall_of_shutdown sq h, ih]

theorem AddTask_room (sq : SharedQueue) (hs : sq.shutdown = false) (hc : sq.tasksClosed = false)
    (hd : sq.ctxDone = false) (hlt : sq.tasks.length < sq.maxSize) (t : Task) (pick : Bool) :
    AddTask sq (some t) pick = .ok (true, { sq with tasks := sq.tasks ++ [t] }) := by
  simp [AddTask, hs, hd, sendReady, hc, hlt, send, Except.map]

theorem AddTask_full (sq : SharedQueue) (hs : sq.shutdown = false)
    (hc : sq.tasksClosed = false) (hd : sq.ctxDone = false)
    (hge : sq.maxSize ≤ sq.tasks.length) (task : Option Task) (pick : Bool) :
    AddTask sq task pick = .ok (false, sq) := by
  cases task with
  | none => rfl
  | some t =>
    have : ¬ sq.tasks.length < sq.maxSize := by omega
    simp [AddTask, hs, hd, sendReady, hc, this]

theorem GetTask_open (sq : SharedQueue) (hs : sq.shutdown = false) (hc : sq.tasksClosed = false)
    (hd : sq.ctxDone = false) (pick : Bool) :
    GetTask sq pick =
      match sq.tasks with
      | [] => .error .blocked
      | t :: rest => .ok (some t, { sq with tasks := rest }) := by
  cases ht : sq.tasks with
  | nil => simp [GetTask, hs, hd, recvReady, hc, ht]
  | cons t rest => simp [GetTask, hs, hd, recvReady, hc, ht, recv]

/-- Every call that returns keeps the representation invariant. -/
theorem stepCall_WF (sq sq1 : SharedQueue) (hwf : sq.WF) (c : Call) (r : Ret)
    (h : stepCall sq c = .ok (r, sq1)) : sq1.WF := by
  cases hs : sq.shutdown
  · obtain ⟨h1, h2, h3⟩ := hwf
    rw [hs] at h1 h2
    cases c with
    | addTask task pick =>
      by_cases hlt : sq.tasks.length < sq.maxSize
      · cases task with
        | none =>
          simp [stepCall, AddTask, Except.map] at h
          rw [← h.2]; exact ⟨by rw [h1, hs], by rw [h2, hs], h3⟩
        | some t =>
          rw [stepCall, AddTask_room sq hs h1 h2 hlt] at h
          simp [Except.map] at h
          rw [← h.2]
          refine ⟨by simp [h1, hs], by simp [h2, hs], ?_⟩
          simp; omega
      · rw [stepCall, AddTask_full sq hs h1 h2 (by omega)] at h
        simp [Except.map] at h
        rw [← h.2]; exact ⟨by rw [h1, hs], by rw [h2, hs], h3⟩
    | getTask pick =>
      rw [stepCall, GetTask_open sq hs h1 h2] at h
      cases ht : sq.tasks with
      | nil => simp [ht, Except.map] at h
      | cons t rest =>
        simp [ht, Except.map] at h
        rw [← h.2]
        refine ⟨by simp [h1, hs], by simp [h2, hs], ?_⟩
        simp [ht] at h3 ⊢; omega
    | shutdown =>
      obtain ⟨sq2, e, hwf2⟩ := Shutdown_of_WF sq ⟨by rw [h1, hs], by rw [h2, hs], h3⟩
      simp [stepCall, e, Except.map] at h
      rw [← h.2]; exact hwf2
  · rw [stepCall_of_shutdown sq hs] at h
    simp at h
    rw [← h.2]; exact hwf

/-- Every state a run of calls reaches from a state with the representation
invariant has it too; in particular every state reached from `NewSharedQueue`. -/
theorem runCalls_WF (cs : List Call) :
    ∀ (sq sq1 : SharedQueue) (h : List (Call × Ret)),
      sq.WF → runCalls sq cs = .ok (h, sq1) → sq1.WF := by
  induction cs with
  | nil =>
    intro sq sq1 h hwf hrun
    simp [runCalls] at hrun
    rw [← hrun.2]; exact hwf
  | cons c cs ih =>
    intro sq sq1 h hwf hrun
    simp only [runCalls] at hrun
    cases hstep : stepCall sq c with
    | error e => simp [hstep] at hrun
    | ok v =>
      obtain ⟨r, sq2⟩ := v
      simp only [hstep] at hrun
      cases hr : runCalls sq2 cs with
      | error e => simp [hr] at hrun
      | ok w =>
        obtain ⟨h2, sq3⟩ := w
        simp [hr] at hrun
        rw [← hrun.2]
        exact ih sq2 sq3 h2 (stepCall_WF sq sq2 hwf c r hstep) hr

/-- On a state with the representation invariant no call panics: the one call
that does not return is a `GetTask` waiting on an empty open queue. -/
theorem stepCall_no_panic (sq : SharedQueue) (hwf : sq.WF) (c : Call) :
    stepCall sq c ≠ .error .panicked := by
  cases hs : sq.shutdown
  · obtain ⟨h1, h2, h3⟩ := hwf
    rw [hs] at h1 h2
    cases c with
    | addTask task pick =>
      by_cases hlt : sq.tasks.length < sq.maxSize
      · cases task with
        | none => simp [stepCall, AddTask, Except.map]
        | some t => simp [stepCall, AddTask_room sq hs h1 h2 hlt, Except.map]
      · simp [stepCall, AddTask_full sq hs h1 h2 (by omega), Except.map]
    | getTask pick =>
      rw [stepCall, GetTask_open sq hs h1 h2]
      cases ht : sq.tasks <;> simp [Except.map]
    | shutdown =>
      obtain ⟨sq2, e, _⟩ := Shutdown_of_WF sq ⟨by rw [h1, hs], by rw [h2, hs], h3⟩
      simp [stepCall, e, Except.map]
  · simp [stepCall_of_shutdown sq hs]

/-- A run of `AddTask` calls that fit in the free room of an open queue: all
return true and the tasks are appended to the buffer in call order. -/
theorem runCalls_adds (ts : List (Task × Bool)) :
    ∀ sq : SharedQueue, sq.shutdown = false → sq.tasksClosed = false → sq.ctxDone = false →
      sq.tasks.length + ts.length ≤ sq.maxSize →
      runCalls sq (ts.map addCall) =
        .ok (ts.map (fun x => (addCall x, Ret.addTask true)),
             { sq with tasks := sq.tasks ++ ts.map Prod.fst }) := by
  induction ts with
  | nil => intro sq _ _ _ _; simp [runCalls]
  | cons x ts ih =>
    intro sq hs hc hd hlen
    simp only [List.length_cons] at hlen
    have hstep : stepCall sq (addCall x) =
        .ok (Ret.addTask true, { sq with tasks := sq.tasks ++ [x.1] }) := by
      rw [addCall, stepCall, AddTask_room sq hs hc hd (by omega)]; rfl
    have := ih { sq with tasks := sq.tasks ++ [x.1] } hs hc hd (by simp; omega)
    simp only [List.map_cons, runCalls, hstep, this]
    simp

/-- First in, first out, for an open queue: along any run of `AddTask` and
`GetTask` calls, the buffer at the start followed by the tasks enqueued is what
was dequeued followed by the buffer at the end; the queue stays open. -/
theorem runCalls_fifo (cs : List Call) :
    ∀ (sq sq1 : SharedQueue) (h : List (Call × Ret)),
      sq.shutdown = false → sq.tasksClosed = false → sq.ctxDone = false →
      Call.shutdown ∉ cs → runCalls sq cs = .ok (h, sq1) →
      dequeued h ++ sq1.tasks.map some = (sq.tasks ++ enqueued h).map some := by
  induction cs with
  | nil =>
    intro sq sq1 h _ _ _ _ hrun
    simp [runCalls] at hrun
    obtain ⟨rfl, rfl⟩ := hrun
    simp [dequeued, enqueued]
  | cons c cs ih =>
    intro sq sq1 h hs hc hd hns hrun
    have hns1 : Call.shutdown ∉ cs := fun hm => hns (List.mem_cons_of_mem _ hm)
    cases c with
    | shutdown => exact absurd (List.mem_cons_self _ _) hns
    | getTask pick =>
      simp only [runCalls, stepCall] at hrun
      rw [GetTask_open sq hs hc hd] at hrun
      cases ht : sq.tasks with
      | nil => simp [ht, Except.map] at hrun
      | cons t rest =>
        simp only [ht, Except.map] at hrun
        cases hr : runCalls { sq with tasks := rest } cs with
        | error e => simp [hr] at hrun
        | ok v =>
          obtain ⟨h1, sq2⟩ := v
          simp [hr] at hrun
          obtain ⟨rfl, rfl⟩ := hrun
          have := ih { sq with tasks := rest } sq2 h1 hs hc hd hns1 hr
          simp [dequeued, enqueued] at this ⊢
          exact this
    | addTask task pick =>
      simp only [runCalls, stepCall] at hrun
      by_cases hroom : sq.tasks.length < sq.maxSize
      · cases task with
        | none =>
          simp only [AddTask, Except.map] at hrun
          cases hr : runCalls sq cs with
          | error e => simp [hr] at hrun
          | ok v =>
            obtain ⟨h1, sq2⟩ := v
            simp [hr] at hrun
            obtain ⟨rfl, rfl⟩ := hrun
            have := ih sq sq2 h1 hs hc hd hns1 hr
            simp [dequeued, enqueued] at this ⊢
            exact this
        | some t =>
          rw [AddTask_room sq hs hc hd hroom] at hrun
          simp only [Except.map] at hrun
          cases hr : runCalls { sq with tasks := sq.tasks ++ [t] } cs with
          | error e => simp [hr] at hrun
          | ok v =>
            obtain ⟨h1, sq2⟩ := v
            simp [hr] at hrun
            obtain ⟨rfl, rfl⟩ := hrun
            have := ih { sq with tasks := sq.tasks ++ [t] } sq2 h1 hs hc hd hns1 hr
            simp [dequeued, enqueued] at this ⊢
            exact this
      · rw [AddTask_full sq hs hc hd (by omega)] at hrun
        simp only [Except.map] at hrun
        cases hr : runCalls sq cs with
        | error e => simp [hr] at hrun
        | ok v =>
          obtain ⟨h1, sq2⟩ := v
          simp [hr] at hrun
          obtain ⟨rfl, rfl⟩ := hrun
          have := ih sq sq2 h1 hs hc hd hns1 hr
          cases task <;> simp [dequeued, enqueued] at this ⊢ <;> exact this

/-- Two runs, one after the other, are one run. -/
theorem runCalls_append (cs1 cs2 : List Call) :
    ∀ (q q1 q2 : SharedQueue) (h1 h2 : List (Call × Ret)),
      runCalls q cs1 = .ok (h1, q1) → runCalls q1 cs2 = .ok (h2, q2) →
      runCalls q (cs1 ++ cs2) = .ok (h1 ++ h2, q2) := by
  induction cs1 with
  | nil =>
    intro q q1 q2 h1 h2 e1 e2
    simp [runCalls] at e1
    obtain ⟨rfl, rfl⟩ := e1
    simpa using e2
  | cons c cs1 ih =>
    intro q q1 q2 h1 h2 e1 e2
    simp only [runCalls, List.cons_append] at e1 ⊢
    cases hstep : stepCall q c with
    | error e => simp [hstep] at e1
    | ok v =>
      obtain ⟨r, q3⟩ := v
      simp only [hstep] at e1 ⊢
      cases hr : runCalls q3 cs1 with
      | error e => simp [hr] at e1
      | ok w =>
        obtain ⟨h3, q4⟩ := w
        simp [hr] at e1
        obtain ⟨rfl, rfl⟩ := e1
        simp [ih q3 q4 q2 h3 h2 hr e2]

/-- C1: the code breaks the claim.  A queue of capacity 2 holds `task1` when
`Shutdown` is called; the two `GetTask` calls that follow both return `nil`,
where the claim has `task1` and then `nil`, and `task1` is still in the buffer:
`nil` comes back from a queue that is shut down and not empty. -/
theorem buffered_task_lost_at_Shutdown :
    ∃ h sq, runCalls (NewSharedQueue 2)
        [.addTask (some task1) true, .shutdown, .getTask true, .getTask true] = .ok (h, sq) ∧
      enqueued h = [task1] ∧ dequeued h = [none, none] ∧
      dequeued h ≠ [some task1, none] ∧ sq.tasks = [task1] ∧ Size sq = 1 ∧
      IsEmpty sq = false :=
  ⟨_, _, rfl, rfl, rfl, by decide, rfl, rfl, rfl⟩

/-- The extent of that defect: on every queue, once `Shutdown` has returned,
`GetTask` returns `nil` with the buffer as it was when `Shutdown` was called,
so no task that was buffered then is ever handed out. -/
theorem GetTask_nil_after_Shutdown (sq sq1 : SharedQueue) (h : Shutdown sq = .ok sq1)
    (pick : Bool) :
    GetTask sq1 pick = .ok (none, sq1) ∧ sq1.tasks = sq.tasks := by
  obtain ⟨hs, ht, _⟩ := Shutdown_ok sq sq1 h
  exact ⟨GetTask_of_shutdown sq1 hs pick, ht⟩

/-- C2: on a queue made by `NewSharedQueue C`, with no `GetTask` and no
`Shutdown` in between, the first `C` `AddTask` calls with non-nil tasks all
return true, and the call after them returns false and leaves `Size` at `C`. -/
theorem AddTask_capacity (C : Nat) (ts : List (Task × Bool)) (hlen : ts.length = C)
    (t : Task) (pick : Bool) :
    ∃ sq1, runCalls (NewSharedQueue C) (ts.map addCall) =
        .ok (ts.map (fun x => (addCall x, Ret.addTask true)), sq1) ∧
      Size sq1 = C ∧
      AddTask sq1 (some t) pick = .ok (false, sq1) ∧
      runCalls (NewSharedQueue C) ((ts ++ [(t, pick)]).map addCall) =
        .ok (ts.map (fun x => (addCall x, Ret.addTask true))
              ++ [(addCall (t, pick), Ret.addTask false)], sq1) := by
  have hrun := runCalls_adds ts (NewSharedQueue C) rfl rfl rfl
    (by simp [NewSharedQueue, hlen])
  have hsize : Size { NewSharedQueue C with
      tasks := (NewSharedQueue C).tasks ++ ts.map Prod.fst } = C := by
    simp [Size, NewSharedQueue, hlen]
  have hfull := AddTask_full { NewSharedQueue C with
      tasks := (NewSharedQueue C).tasks ++ ts.map Prod.fst } rfl rfl rfl
    (by simp [NewSharedQueue, hlen]) (some t) pick
  refine ⟨_, hrun, hsize, hfull, ?_⟩
  rw [List.map_append]
  refine runCalls_append _ _ _ _ _ _ _ hrun ?_
  simp [runCalls, stepCall, addCall, hfull, Except.map]

/-- C2 at capacity 2. -/
theorem AddTask_capacity_witness :
    [(task1, true), (task2, false)].length = 2 ∧
      ∃ sq1, runCalls (NewSharedQueue 2) ([(task1, true), (task2, false)].map addCall) =
          .ok ([(task1, true), (task2, false)].map (fun x => (addCall x, Ret.addTask true)), sq1) ∧
        Size sq1 = 2 ∧
        AddTask sq1 (some task1) true = .ok (false, sq1) ∧
        runCalls (NewSharedQueue 2)
            (([(task1, true), (task2, false)] ++ [(task1, true)]).map addCall) =
          .ok ([(task1, true), (task2, false)].map (fun x => (addCall x, Ret.addTask true))
                ++ [(addCall (task1, true), Ret.addTask false)], sq1) :=
  ⟨rfl, AddTask_capacity 2 [(task1, true), (task2, false)] rfl task1 true⟩

/-- C3: once `Shutdown` has been called on a queue, `IsShutdown` returns true,
every later `AddTask` call returns false and leaves the buffer as it is (also
with other calls in between), and a second `Shutdown` leaves the queue exactly
as the first one left it. -/
theorem Shutdown_idempotent (sq : SharedQueue) (hwf : sq.WF) :
    ∃ sq1, Shutdown sq = .ok sq1 ∧ IsShutdown sq1 = true ∧
      (∀ task pick, AddTask sq1 task pick = .ok (false, sq1)) ∧
      (∀ cs : List Call, runCalls sq1 cs = .ok (cs.map (fun c => (c, shutdownRet c)), sq1)) ∧
      Shutdown sq1 = .ok sq1 := by
  obtain ⟨sq1, h, _⟩ := Shutdown_of_WF sq hwf
  have hs := (Shutdown_ok sq sq1 h).1
  exact ⟨sq1, h, hs, AddTask_of_shutdown sq1 hs, runCalls_of_shutdown sq1 hs,
    Shutdown_of_shutdown sq1 hs⟩

/-- C3 at an open queue of capacity 2 that holds one task. -/
theorem Shutdown_idempotent_witness :
    SharedQueue.WF { tasks := [task1], tasksClosed := false, shutdown := false,
                     maxSize := 2, ctxDone := false } ∧
      ∃ sq1, Shutdown { tasks := [task1], tasksClosed := false, shutdown := false,
                        maxSize := 2, ctxDone := false } = .ok sq1 ∧ IsShutdown sq1 = true ∧
        (∀ task pick, AddTask sq1 task pick = .ok (false, sq1)) ∧
        (∀ cs : List Call,
          runCalls sq1 cs = .ok (cs.map (fun c => (c, shutdownRet c)), sq1)) ∧
        Shutdown sq1 = .ok sq1 :=
  ⟨by decide, Shutdown_idempotent _ (by decide)⟩

/-- One call on an open queue returns, and leaves the queue open, unless it is
a `GetTask` on an empty buffer (or a `Shutdown`). -/
theorem stepCall_open (sq : SharedQueue) (hs : sq.shutdown = false)
    (hc : sq.tasksClosed = false) (hd : sq.ctxDone = false) (c : Call)
    (hns : c ≠ Call.shutdown) (hne : ∀ pick, c = Call.getTask pick → IsEmpty sq = false) :
    ∃ r sq1, stepCall sq c = .ok (r, sq1) ∧ sq1.shutdown = false ∧
      sq1.tasksClosed = false ∧ sq1.ctxDone = false := by
  cases c with
  | shutdown => exact absurd rfl hns
  | getTask pick =>
    have hne1 := hne pick rfl
    rw [stepCall, GetTask_open sq hs hc hd]
    cases ht : sq.tasks with
    | nil => simp [IsEmpty, ht] at hne1
    | cons t rest => exact ⟨_, _, rfl, hs, hc, hd⟩
  | addTask task pick =>
    by_cases hroom : sq.tasks.length < sq.maxSize
    · cases task with
      | none => exact ⟨_, _, rfl, hs, hc, hd⟩
      | some t =>
        rw [stepCall, AddTask_room sq hs hc hd hroom]
        exact ⟨_, _, rfl, hs, hc, hd⟩
    · rw [stepCall, AddTask_full sq hs hc hd (by omega)]
      exact ⟨_, _, rfl, hs, hc, hd⟩

/-- A run of `AddTask` and `GetTask` calls on an open queue returns, with one
returned value for each call, when no `GetTask` meets an empty buffer. -/
theorem runCalls_returns (cs : List Call) :
    ∀ sq : SharedQueue, sq.shutdown = false → sq.tasksClosed = false → sq.ctxDone = false →
      Call.shutdown ∉ cs → getsNonEmpty sq cs = true →
      ∃ h sq1, runCalls sq cs = .ok (h, sq1) ∧ h.map Prod.fst = cs := by
  induction cs with
  | nil => intro sq _ _ _ _ _; exact ⟨[], sq, rfl, rfl⟩
  | cons c cs ih =>
    intro sq hs hc hd hns hne
    have hc1 : c ≠ Call.shutdown := fun e => hns (e ▸ List.mem_cons_self _ _)
    have hcs : Call.shutdown ∉ cs := fun hm => hns (List.mem_cons_of_mem _ hm)
    simp only [getsNonEmpty, Bool.and_eq_true] at hne
    have hget : ∀ pick, c = Call.getTask pick → IsEmpty sq = false := by
      intro pick e
      have h1 := hne.1
      rw [e] at h1
      simpa using h1
    obtain ⟨r, sq1, hstep, hs1, hc1', hd1⟩ := stepCall_open sq hs hc hd c hc1 hget
    have hrest : getsNonEmpty sq1 cs = true := by
      have h2 := hne.2
      rw [hstep] at h2
      exact h2
    obtain ⟨h, sq2, hrun, hmap⟩ := ih sq1 hs1 hc1' hd1 hcs hrest
    refine ⟨(c, r) :: h, sq2, ?_, ?_⟩
    · simp only [runCalls, hstep, hrun]
    · simp [hmap]

/-- C4: on a queue made by `NewSharedQueue`, any run of `AddTask` and `GetTask`
calls in which no `GetTask` meets an empty buffer returns, with one returned
value for each call; the tasks dequeued, followed by those still buffered, are
the tasks enqueued, in order; so the `i`-th `GetTask` call returns the `i`-th
task that was enqueued. -/
theorem GetTask_fifo (C : Nat) (cs : List Call) (hns : Call.shutdown ∉ cs)
    (hne : getsNonEmpty (NewSharedQueue C) cs = true) :
    ∃ h sq1, runCalls (NewSharedQueue C) cs = .ok (h, sq1) ∧ h.map Prod.fst = cs ∧
      dequeued h ++ sq1.tasks.map some = (enqueued h).map some ∧
      ∀ i, i < (dequeued h).length →
        ∃ t, (enqueued h)[i]? = some t ∧ (dequeued h)[i]? = some (some t) := by
  obtain ⟨h, sq1, hrun, hmap⟩ := runCalls_returns cs (NewSharedQueue C) rfl rfl rfl hns hne
  have key := runCalls_fifo cs (NewSharedQueue C) sq1 h rfl rfl rfl hns hrun
  have key1 : dequeued h ++ sq1.tasks.map some = (enqueued h).map some := by
    simpa [NewSharedQueue] using key
  refine ⟨h, sq1, hrun, hmap, key1, ?_⟩
  intro i hi
  have e1 : (dequeued h ++ sq1.tasks.map some)[i]? = (dequeued h)[i]? :=
    List.getElem?_append_left hi
  rw [key1, List.getElem?_map] at e1
  have e2 : (dequeued h)[i]? = some ((dequeued h)[i]) := List.getElem?_eq_getElem hi
  rw [e2] at e1
  cases he : (enqueued h)[i]? with
  | none => simp [he] at e1
  | some t =>
    refine ⟨t, rfl, ?_⟩
    rw [e2, ← e1, he]; rfl

/-- C4 at a run of three `AddTask` and two `GetTask` calls on a queue of
capacity 2: the two `GetTask` calls return `task1` and `task2`, the first two
tasks enqueued. -/
theorem GetTask_fifo_witness :
    Call.shutdown ∉ [Call.addTask (some task1) true, .addTask (some task2) true,
        .getTask true, .addTask (some task1) false, .getTask false] ∧
      getsNonEmpty (NewSharedQueue 2) [.addTask (some task1) true, .addTask (some task2) true,
        .getTask true, .addTask (some task1) false, .getTask false] = true ∧
      ∃ h sq1, runCalls (NewSharedQueue 2) [.addTask (some task1) true,
          .addTask (some task2) true, .getTask true, .addTask (some task1) false,
          .getTask false] = .ok (h, sq1) ∧
        h.map Prod.fst = [.addTask (some task1) true, .addTask (some task2) true,
          .getTask true, .addTask (some task1) false, .getTask false] ∧
        dequeued h ++ sq1.tasks.map some = (enqueued h).map some ∧
        ∀ i, i < (dequeued h).length →
          ∃ t, (enqueued h)[i]? = some t ∧ (dequeued h)[i]? = some (some t) :=
  ⟨by decide, by decide,
    GetTask_fifo 2 [.addTask (some task1) true, .addTask (some task2) true,
      .getTask true, .addTask (some task1) false, .getTask false] (by decide) (by decide)⟩

/-! ## The results manager -/

/-- What a run of `AddResult` calls leaves: the non-nil arguments appended in
call order, the count raised by the number of calls that returned `nil`. -/
theorem addResults_state (args : List (Option ProcessedResult)) :
    ∀ rm : ResultsManager,
      (addResults rm args).2.results = rm.results ++ args.reduceOption ∧
      (addResults rm args).2.resultsCount =
        rm.resultsCount + ((addResults rm args).1.count none : Nat) ∧
      ((addResults rm args).1.count none) = args.reduceOption.length ∧
      (addResults rm args).2.outputFile = rm.outputFile := by
  induction args with
  | nil => intro rm; simp [addResults]
  | cons a args ih =>
    intro rm
    cases a with
    | none =>
      obtain ⟨h1, h2, h3, h4⟩ := ih rm
      simp only [addResults, AddResult]
      refine ⟨by simpa using h1, ?_, ?_, h4⟩
      · rw [h2]; simp
      · simpa using h3
    | some r =>
      obtain ⟨h1, h2, h3, h4⟩ :=
        ih { rm with results := rm.results ++ [r], resultsCount := rm.resultsCount + 1 }
      simp only [addResults, AddResult]
      refine ⟨?_, ?_, ?_, h4⟩
      · rw [h1]; simp
      · rw [h2]; simp; omega
      · rw [List.count_cons_self, h3]; simp

theorem reduceOption_map_some (rs : List ProcessedResult) :
    (rs.map some).reduceOption = rs := by
  induction rs with
  | nil => rfl
  | cons r rs ih => simp [List.reduceOption_cons_of_some, ih]

/-- The manager that holds `rs`, field by field. -/
theorem managerHolding_eq (outputFile : String) (rs : List ProcessedResult) :
    managerHolding outputFile rs =
      { results := rs, outputFile := outputFile, resultsCount := (rs.length : Int) } := by
  obtain ⟨h1, h2, h3, h4⟩ := addResults_state (rs.map some) (NewResultsManager outputFile)
  have hro := reduceOption_map_some rs
  rw [hro] at h1 h3
  rw [h3] at h2
  unfold managerHolding
  cases hm : (addResults (NewResultsManager outputFile) (rs.map some)).2 with
  | mk results file count =>
    rw [hm] at h1 h2 h4
    simp [NewResultsManager] at h1 h2 h4
    simp [h1, h2, h4]

theorem wrap64_wrap64_add (a b : Int) : wrap64 (wrap64 a + b) = wrap64 (a + b) := by
  unfold wrap64; omega

theorem wrap64_of_range (x : Int) (hlo : -2 ^ 63 ≤ x) (hhi : x < 2 ^ 63) : wrap64 x = x := by
  unfold wrap64; omega

theorem wrap64_range (x : Int) : -2 ^ 63 ≤ wrap64 x ∧ wrap64 x < 2 ^ 63 := by
  unfold wrap64; omega

/-- The running total of `PrintSummary` is the sum of the processing times,
reduced to `int64`. -/
theorem foldl_wrap64 (rs : List ProcessedResult) :
    ∀ total : Int, wrap64 total = total →
      rs.foldl (fun total result => wrap64 (total + result.ProcessingTime)) total =
        wrap64 (total + (rs.map ProcessedResult.ProcessingTime).sum) := by
  induction rs with
  | nil => intro total h; simp [h]
  | cons r rs ih =>
    intro total _
    have hidem : wrap64 (wrap64 (total + r.ProcessingTime)) = wrap64 (total + r.ProcessingTime) := by
      unfold wrap64; omega
    simp only [List.foldl_cons, List.map_cons, List.sum_cons]
    rw [ih _ hidem, wrap64_wrap64_add, Int.add_assoc]

/-- The text of a `String.join` on a non-empty list. -/
theorem join_cons (x : String) (l : List String) : String.join (x :: l) = x ++ String.join l := by
  have key : ∀ (l : List String) (init : String),
      List.foldl (fun r s => r ++ s) init l = init ++ List.foldl (fun r s => r ++ s) "" l := by
    intro l
    induction l with
    | nil => intro init; simp
    | cons y l ih =>
      intro init
      simp only [List.foldl_cons]
      rw [ih (init ++ y), ih ("" ++ y), String.empty_append, String.append_assoc]
  simp only [String.join, List.foldl_cons]
  rw [key l ("" ++ x), String.empty_append]

/-- The loop of `WriteResultsToFile` appends one block for each result. -/
theorem foldl_blocks (block : ProcessedResult → String) (tail : String)
    (rs : List ProcessedResult) :
    ∀ file : String,
      rs.foldl (fun file result => file ++ block result ++ tail) file =
        file ++ String.join (rs.map (fun result => block result ++ tail)) := by
  induction rs with
  | nil => intro file; simp [String.join]
  | cons r rs ih =>
    intro file
    simp only [List.foldl_cons, List.map_cons]
    rw [ih, join_cons, String.append_assoc, String.append_assoc, String.append_assoc]

/-- C5: `AddResult` returns an error exactly when the result is `nil`, and then
the manager is unchanged; for a non-nil result it returns `nil`, the stored
sequence is the previous one with the result appended at the end, and the count
is one more. -/
theorem AddResult_spec (rm : ResultsManager) (result : Option ProcessedResult) :
    ((AddResult rm result).1 ≠ none ↔ result = none) ∧
      (AddResult rm none).1 = some "result cannot be nil" ∧
      (AddResult rm none).2 = rm ∧
      ∀ r : ProcessedResult,
        (AddResult rm (some r)).1 = none ∧
        GetAllResults (AddResult rm (some r)).2 = GetAllResults rm ++ [r] ∧
        GetResultCount (AddResult rm (some r)).2 = GetResultCount rm + 1 ∧
        (AddResult rm (some r)).2.outputFile = rm.outputFile := by
  refine ⟨?_, rfl, rfl, fun r => ⟨rfl, rfl, rfl, rfl⟩⟩
  cases result <;> simp [AddResult]

/-- C6: after any sequence of `AddResult` calls (nil and non-nil arguments
mixed) on a manager made by `NewResultsManager`, `GetResultCount` is the length
of `GetAllResults` and the number of calls that returned no error; the results
held are the non-nil arguments in call order. -/
theorem GetResultCount_eq (outputFile : String) (args : List (Option ProcessedResult)) :
    GetResultCount (addResults (NewResultsManager outputFile) args).2 =
        ((GetAllResults (addResults (NewResultsManager outputFile) args).2).length : Int) ∧
      GetResultCount (addResults (NewResultsManager outputFile) args).2 =
        (((addResults (NewResultsManager outputFile) args).1.count none : Nat) : Int) ∧
      (addResults (NewResultsManager outputFile) args).1.length = args.length ∧
      GetAllResults (addResults (NewResultsManager outputFile) args).2 = args.reduceOption := by
  obtain ⟨h1, h2, h3, _⟩ := addResults_state args (NewResultsManager outputFile)
  have hlen : ∀ (l : List (Option ProcessedResult)) (rm : ResultsManager),
      (addResults rm l).1.length = l.length := by
    intro l
    induction l with
    | nil => intro rm; rfl
    | cons a l ih => intro rm; simp [addResults, ih]
  have e1 : (NewResultsManager outputFile).results = [] := rfl
  have e2 : (NewResultsManager outputFile).resultsCount = 0 := rfl
  rw [e1, List.nil_append] at h1
  rw [e2, zero_add] at h2
  refine ⟨?_, ?_, hlen args _, ?_⟩
  · simp only [GetResultCount, GetAllResults]
    rw [h2, h1, h3]
  · simp only [GetResultCount]
    rw [h2]
  · simp only [GetAllResults]
    rw [h1]

/-- C7, as stated, fails: a manager holds two results whose processing times
are the largest `int64` and 1; their sum is 9223372036854775808, and the total
`PrintSummary` prints is -9223372036854775808 (the average printed is half of
that). -/
theorem PrintSummary_total_wraps :
    PrintSummary fmt0 (managerHolding "out.txt" [resultMax, resultOne]) =
        .ok ("\n=== Processing Summary ===\n"
          ++ "Total Tasks Processed: 2\n"
          ++ "Total Processing Time: -9223372036854775808ns\n"
          ++ "Average Processing Time: -4611686018427387904ns\n"
          ++ "Results saved to: out.txt\n"
          ++ "========================\n") ∧
      ([resultMax, resultOne].map ProcessedResult.ProcessingTime).sum = 9223372036854775808 ∧
      fmt0.duration 9223372036854775808 = "9223372036854775808ns" ∧
      fmt0.duration (-9223372036854775808) = "-9223372036854775808ns" :=
  ⟨rfl, by decide, by decide, by decide⟩

/-- C7, amended: for a manager that holds no result, `PrintSummary` prints the
"no results" line and returns (no division is made); for a manager that holds
the `N ≥ 1` results `r :: rs`, it prints the count `N`, the total, which is the
sum of the `ProcessingTime` values reduced to `int64` by wrap-around (the sum
itself whenever the sum is in the range of `int64`), and the average, which is
that total divided by `N` (Go's integer division, truncated toward zero). -/
theorem PrintSummary_spec (fmt : Fmt) (outputFile : String) (r : ProcessedResult)
    (rs : List ProcessedResult) :
    PrintSummary fmt (managerHolding outputFile []) = .ok "No results to display.\n" ∧
      PrintSummary fmt (managerHolding outputFile (r :: rs)) =
        .ok ("\n=== Processing Summary ===\n"
          ++ ("Total Tasks Processed: " ++ fmtInt ((r :: rs).length : Int) ++ "\n")
          ++ ("Total Processing Time: " ++ fmt.duration
                (wrap64 ((r :: rs).map ProcessedResult.ProcessingTime).sum) ++ "\n")
          ++ ("Average Processing Time: " ++ fmt.duration
                (Int.tdiv (wrap64 ((r :: rs).map ProcessedResult.ProcessingTime).sum)
                  ((r :: rs).length : Int)) ++ "\n")
          ++ ("Results saved to: " ++ outputFile ++ "\n")
          ++ "========================\n") ∧
      (-2 ^ 63 ≤ ((r :: rs).map ProcessedResult.ProcessingTime).sum ∧
          ((r :: rs).map ProcessedResult.ProcessingTime).sum < 2 ^ 63 →
        wrap64 ((r :: rs).map ProcessedResult.ProcessingTime).sum =
          ((r :: rs).map ProcessedResult.ProcessingTime).sum) := by
  refine ⟨?_, ?_, fun h => wrap64_of_range _ h.1 h.2⟩
  · rw [managerHolding_eq]; rfl
  · rw [managerHolding_eq]
    have hN : ((r :: rs).length : Int) ≠ 0 := by
      simp only [List.length_cons]; push_cast; omega
    have hN1 : ((r :: rs).length : Int) ≠ -1 := by
      simp only [List.length_cons]; push_cast; omega
    have h0 : wrap64 0 = 0 := by unfold wrap64; omega
    have hsum := foldl_wrap64 (r :: rs) 0 h0
    rw [Int.zero_add] at hsum
    have hdiv : goDiv (wrap64 ((r :: rs).map ProcessedResult.ProcessingTime).sum)
        ((r :: rs).length : Int) =
        .ok (Int.tdiv (wrap64 ((r :: rs).map ProcessedResult.ProcessingTime).sum)
          ((r :: rs).length : Int)) := by
      unfold goDiv
      rw [if_neg hN, if_neg (fun h => hN1 h.2)]
    unfold PrintSummary
    simp only [hsum]
    rw [if_neg hN, hdiv]

/-- C10: for a manager that holds the `N` results `rs`, the text
`WriteResultsToFile` writes is the header (title line, generation line, the
line `Total Results: N`, a line of 80 `=`, an empty line) followed by `N`
blocks in insertion order, the block of a result being its `String()` line,
which shows its six fields, and a line of 40 `-`. -/
theorem WriteResultsToFile_spec (fmt : Fmt) (outputFile : String) (rs : List ProcessedResult)
    (now : Time) :
    WriteResultsToFile fmt (managerHolding outputFile rs) now none =
        .ok ("Data Processing System Results\n"
          ++ ("Generated at: " ++ fmt.time now ++ "\n")
          ++ ("Total Results: " ++ fmtInt (rs.length : Int) ++ "\n")
          ++ ("================================================================================"
                ++ "\n\n")
          ++ String.join (rs.map (fun result =>
              ProcessedResult_String fmt result ++ "\n"
                ++ ("----------------------------------------" ++ "\n")))) ∧
      (rs.map (fun result =>
          ProcessedResult_String fmt result ++ "\n"
            ++ ("----------------------------------------" ++ "\n"))).length = rs.length ∧
      "================================================================================".length
        = 80 ∧
      "----------------------------------------".length = 40 ∧
      ∀ pr : ProcessedResult, ProcessedResult_String fmt pr =
        "ProcessedResult\x7btaskId=" ++ fmtInt pr.TaskID
          ++ ", originalData='" ++ pr.OriginalData
          ++ "', processedData='" ++ pr.ProcessedData
          ++ "', processingTime=" ++ fmt.duration pr.ProcessingTime
          ++ ", workerThread='" ++ pr.WorkerThreadName
          ++ "', timestamp=" ++ fmt.time pr.Timestamp ++ "\x7d" := by
  have h80 : Repeat "=" 80 =
      "================================================================================" := by
    decide
  have h40 : Repeat "-" 40 = "----------------------------------------" := by decide
  refine ⟨?_, by simp, by decide, by decide, fun pr => rfl⟩
  rw [managerHolding_eq]
  simp only [WriteResultsToFile, h80, h40, String.empty_append]
  rw [foldl_blocks (fun result => ProcessedResult_String fmt result ++ "\n")
    ("----------------------------------------" ++ "\n") rs]

/-! ## The worker -/

/-- C8: `processData` returns the marker `EMPTY_DATA` for the empty payload;
for a non-empty payload, whatever the clock reads, it returns a non-empty
string other than the marker, so the marker comes from the empty payload only;
and `processTask` returns a result and the error `nil`. -/
theorem processData_spec (fmt : Fmt) (nowUnixNano : Int) (data : String) :
    processData fmt nowUnixNano "" = "EMPTY_DATA" ∧
      (data ≠ "" → processData fmt nowUnixNano data ≠ "" ∧
        processData fmt nowUnixNano data ≠ "EMPTY_DATA") ∧
      (processData fmt nowUnixNano data = "EMPTY_DATA" ↔ data = "") ∧
      ∀ (w : Worker) (task : Task) (clock : TaskClock),
        (processTask fmt w task clock).2 = none ∧
        ∃ r, (processTask fmt w task clock).1 = some r ∧
          r.ProcessedData = processData fmt clock.nowUnixNano task.Data ∧
          r.TaskID = task.ID ∧ r.OriginalData = task.Data := by
  have hlen : data ≠ "" → 11 ≤ (processData fmt nowUnixNano data).length := by
    intro hne
    have h11 : "_PROCESSED_".length = 11 := by decide
    simp only [processData, if_neg hne, String.length_append, h11]
    omega
  have hne1 : data ≠ "" → processData fmt nowUnixNano data ≠ "" := by
    intro hne heq
    have := hlen hne
    rw [heq] at this
    exact absurd this (by decide)
  have hne2 : data ≠ "" → processData fmt nowUnixNano data ≠ "EMPTY_DATA" := by
    intro hne heq
    have := hlen hne
    rw [heq] at this
    exact absurd this (by decide)
  refine ⟨by simp [processData], fun hne => ⟨hne1 hne, hne2 hne⟩, ?_, ?_⟩
  · constructor
    · intro heq
      by_contra hne
      exact hne2 hne heq
    · intro h; rw [h]; simp [processData]
  · intro w task clock
    exact ⟨rfl, _, rfl, rfl, rfl, rfl⟩

/-! ## The system -/

theorem goDiv_ok (a b : Int) (hb : b ≠ 0) : ∃ q, goDiv a b = .ok q := by
  unfold goDiv
  rw [if_neg hb]
  by_cases h : a = -2 ^ 63 ∧ b = -1
  · exact ⟨_, if_pos h⟩
  · exact ⟨_, if_neg h⟩

/-- The summary never faults: the guard on the count comes before the division. -/
theorem PrintSummary_ok (fmt : Fmt) (rm : ResultsManager) : ∃ text, PrintSummary fmt rm = .ok text := by
  unfold PrintSummary
  by_cases h0 : rm.resultsCount = 0
  · exact ⟨_, if_pos h0⟩
  · rw [if_neg h0]
    obtain ⟨q, hq⟩ := goDiv_ok
      (rm.results.foldl (fun total result => wrap64 (total + result.ProcessingTime)) 0)
      rm.resultsCount h0
    simp only [hq]
    exact ⟨_, rfl⟩

/-- One `Shutdown` call of the system, given that the queue's `Shutdown`
returns: the queue is the shut-down one, every worker is stopped, and the world
gains the report when the export succeeded. -/
theorem DataProcessingSystem_Shutdown_ok (fmt : Fmt) (dps : DataProcessingSystem)
    (env : ShutdownEnv) (world : World) (q1 : SharedQueue)
    (hq : Shutdown dps.taskQueue = .ok q1) :
    ∃ w1, DataProcessingSystem.Shutdown fmt dps env world =
        .ok ({ dps with taskQueue := q1, workers := dps.workers.map Worker.Stop }, w1) ∧
      w1.reports = world.reports ++
        (match WriteResultsToFile fmt dps.resultsManager env.now env.createErr with
         | .ok text => [(dps.resultsManager.outputFile, text)]
         | .error _ => []) := by
  unfold DataProcessingSystem.Shutdown
  simp only [hq]
  cases hw : WriteResultsToFile fmt dps.resultsManager env.now env.createErr with
  | error err => exact ⟨_, rfl, by simp⟩
  | ok text =>
    obtain ⟨summary, hsum⟩ := PrintSummary_ok fmt dps.resultsManager
    simp only [hsum]
    exact ⟨_, rfl, rfl⟩

/-- C9, as stated, fails: on a system with two workers and one result, two
`Shutdown` calls in succession write the report twice, once in each call. -/
theorem second_Shutdown_exports_again :
    ∃ dps1 w1 dps2 w2,
      DataProcessingSystem.Shutdown fmt0 system0 envJoined world0 = .ok (dps1, w1) ∧
      DataProcessingSystem.Shutdown fmt0 dps1 envTimeout w1 = .ok (dps2, w2) ∧
      w1.reports.length = 1 ∧ w2.reports.length = 2 ∧
      w2.reports.map Prod.fst = ["go_processing_results.txt", "go_processing_results.txt"] := by
  obtain ⟨q1, hq, hwf1⟩ := Shutdown_of_WF system0.taskQueue (by decide)
  obtain ⟨w1, h1, hr1⟩ := DataProcessingSystem_Shutdown_ok fmt0 system0 envJoined world0 q1 hq
  have hs := (Shutdown_ok _ _ hq).1
  obtain ⟨w2, h2, hr2⟩ := DataProcessingSystem_Shutdown_ok fmt0
    { system0 with taskQueue := q1, workers := system0.workers.map Worker.Stop }
    envTimeout w1 q1 (Shutdown_of_shutdown q1 hs)
  refine ⟨_, w1, _, w2, h1, h2, ?_, ?_, ?_⟩
  · rw [hr1]; rfl
  · rw [hr2, hr1]; rfl
  · rw [hr2, hr1]; rfl

/-- C9, amended: two `Shutdown` calls of the system in succession both return
(no panic), and the second leaves the system (queue, manager, workers) as the
first left it; but the second call exports again: each call whose `os.Create`
succeeds writes the report, so the report is written once in each call. -/
theorem Shutdown_twice (fmt : Fmt) (dps : DataProcessingSystem) (env1 env2 : ShutdownEnv)
    (world : World) (hwf : dps.taskQueue.WF) :
    ∃ dps1 w1 w2,
      DataProcessingSystem.Shutdown fmt dps env1 world = .ok (dps1, w1) ∧
      DataProcessingSystem.Shutdown fmt dps1 env2 w1 = .ok (dps1, w2) ∧
      dps1.resultsManager = dps.resultsManager ∧
      IsShutdown dps1.taskQueue = true ∧
      w2.reports = w1.reports ++
        (match WriteResultsToFile fmt dps1.resultsManager env2.now env2.createErr with
         | .ok text => [(dps1.resultsManager.outputFile, text)]
         | .error _ => []) ∧
      (env2.createErr = none → w2.reports.length = w1.reports.length + 1) := by
  obtain ⟨q1, hq, _⟩ := Shutdown_of_WF dps.taskQueue hwf
  have hs := (Shutdown_ok _ _ hq).1
  obtain ⟨w1, h1, _⟩ := DataProcessingSystem_Shutdown_ok fmt dps env1 world q1 hq
  obtain ⟨w2, h2, hr2⟩ := DataProcessingSystem_Shutdown_ok fmt
    { dps with taskQueue := q1, workers := dps.workers.map Worker.Stop }
    env2 w1 q1 (Shutdown_of_shutdown q1 hs)
  have hstop : (dps.workers.map Worker.Stop).map Worker.Stop = dps.workers.map Worker.Stop := by
    rw [List.map_map]; rfl
  simp only [hstop] at h2
  refine ⟨_, w1, w2, h1, h2, rfl, hs, hr2, ?_⟩
  intro hc
  rw [hr2, hc]
  simp [WriteResultsToFile]

/-- C9, amended, at a system with two workers and one result. -/
theorem Shutdown_twice_witness :
    system0.taskQueue.WF ∧
      ∃ dps1 w1 w2,
        DataProcessingSystem.Shutdown fmt0 system0 envJoined world0 = .ok (dps1, w1) ∧
        DataProcessingSystem.Shutdown fmt0 dps1 envTimeout w1 = .ok (dps1, w2) ∧
        dps1.resultsManager = system0.resultsManager ∧
        IsShutdown dps1.taskQueue = true ∧
        w2.reports = w1.reports ++
          (match WriteResultsToFile fmt0 dps1.resultsManager envTimeout.now
              envTimeout.createErr with
           | .ok text => [(dps1.resultsManager.outputFile, text)]
           | .error _ => []) ∧
        (envTimeout.createErr = none → w2.reports.length = w1.reports.length + 1) :=
  ⟨by decide, Shutdown_twice fmt0 system0 envJoined envTimeout world0 (by decide)⟩

end DataProcessing
